import Mathlib

/-!
Shallow embedding of the simulation core of `src/src/components/ArcadeShooter.tsx`.

JavaScript numbers are modelled as rationals (`ℚ`) for coordinates, speeds and
decay values, as `Int` for the counters that are decremented (lives, health,
transition timer, score) and as `Nat` for the level counter.  Canvas rendering,
DOM glue and the React display-state mirroring (`setDisplayState`) are not part
of the simulation core and are not modelled; everything that mutates
`gameStateRef`, `lastShootRef` or reads the input set is.

The per-frame `gameLoop` body is modelled by `gameLoopTick`, split into the
seven update passes it performs in source order.  `Reachable` is the set of
states obtainable from the initial `gameStateRef` value by any interleaving of
frames and of the keyboard `resetGame` triggers.
-/

/-- `CANVAS_WIDTH` from the source. -/
def CANVAS_WIDTH : ℚ := 600

/-- `CANVAS_HEIGHT` from the source. -/
def CANVAS_HEIGHT : ℚ := 700

/-- `PLAYER_WIDTH` from the source. -/
def PLAYER_WIDTH : ℚ := 40

/-- `PLAYER_HEIGHT` from the source. -/
def PLAYER_HEIGHT : ℚ := 30

/-- `PLAYER_SPEED` from the source. -/
def PLAYER_SPEED : ℚ := 8

/-- `BULLET_SPEED` from the source. -/
def BULLET_SPEED : ℚ := 12

/-- `BULLET_WIDTH` from the source. -/
def BULLET_WIDTH : ℚ := 4

/-- `BULLET_HEIGHT` from the source. -/
def BULLET_HEIGHT : ℚ := 12

/-- `ENEMY_WIDTH` from the source. -/
def ENEMY_WIDTH : ℚ := 36

/-- `ENEMY_HEIGHT` from the source. -/
def ENEMY_HEIGHT : ℚ := 28

/-- `SHOOT_COOLDOWN` from the source (milliseconds). -/
def SHOOT_COOLDOWN : Int := 150

/-- `INITIAL_LIVES` from the source. -/
def INITIAL_LIVES : Int := 3

/-- The `Entity` interface: axis-aligned box with top-left origin. -/
structure Entity where
  x : ℚ
  y : ℚ
  width : ℚ
  height : ℚ
deriving DecidableEq, Repr

/-- The `Bullet` interface. -/
structure Bullet extends Entity where
  active : Bool
deriving DecidableEq, Repr

/-- The `Enemy` interface. -/
structure Enemy extends Entity where
  active : Bool
  type : Nat
  health : Int
  speed : ℚ
  direction : ℚ
  hitFlash : ℚ
deriving DecidableEq, Repr

/-- The `Explosion` interface. -/
structure Explosion where
  x : ℚ
  y : ℚ
  radius : ℚ
  maxRadius : ℚ
  alpha : ℚ
  color : String
deriving DecidableEq, Repr

/-- The `GameState` interface (the contents of `gameStateRef`). -/
structure GameState where
  player : Entity
  bullets : List Bullet
  enemies : List Enemy
  explosions : List Explosion
  score : Int
  lives : Int
  level : Nat
  gameOver : Bool
  levelComplete : Bool
  levelTransition : Bool
  transitionTimer : Int
  paused : Bool
  started : Bool
deriving DecidableEq, Repr

/-- The per-frame snapshot of held logical actions (`keysRef` queries). -/
structure Input where
  left : Bool
  right : Bool
  fire : Bool
deriving DecidableEq, Repr

/-- `checkCollision`: the axis-aligned bounding-box intersection test. -/
def checkCollision (a : Entity) (b : Entity) : Bool :=
  decide (a.x < b.x + b.width) && decide (a.x + a.width > b.x) &&
  decide (a.y < b.y + b.height) && decide (a.y + a.height > b.y)

/-- `baseEnemies` computed inside `generateWave` (`4 + Math.floor(level * 1.5)`). -/
def waveBase (level : Nat) : Nat := 4 + 3 * level / 2

/-- `rows` computed inside `generateWave` (`Math.min(2 + Math.floor(level / 3), 4)`). -/
def waveRows (level : Nat) : Nat := min (2 + level / 3) 4

/-- `cols` computed inside `generateWave` (`Math.ceil(baseEnemies / rows)`). -/
def waveCols (level : Nat) : Nat := (waveBase level + waveRows level - 1) / waveRows level

/-- `Omit Enemy active hitFlash`: the record pushed by `generateWave`. -/
structure EnemySpec where
  x : ℚ
  y : ℚ
  width : ℚ
  height : ℚ
  type : Nat
  health : Int
  speed : ℚ
  direction : ℚ
deriving DecidableEq, Repr

/-- The record literal pushed by `generateWave` for grid cell `(row, col)`. -/
def waveSpec (level : Nat) (cols : Nat) (row : Nat) (col : Nat) : EnemySpec :=
  { x := (CANVAS_WIDTH - ((cols : ℚ) - 1) * 60) / 2 + (col : ℚ) * 60
    y := 60 + (row : ℚ) * 50
    width := ENEMY_WIDTH
    height := ENEMY_HEIGHT
    type := row % 3
    health := 1 + (level / 4 : Nat)
    speed := 1 + (level : ℚ) * (15 / 100)
    direction := 1 }

/-- `generateWave`: the pure wave generator.  The double `for` loop with the
`break` once `enemies.length >= baseEnemies` is modelled by a double fold whose
body skips once the target length is reached (the length is monotone, so the
skip is equivalent to the `break`). -/
def generateWave (level : Nat) : List EnemySpec :=
  let base := waveBase level
  let rows := waveRows level
  let cols := waveCols level
  (List.range rows).foldl
    (fun acc row =>
      (List.range cols).foldl
        (fun acc2 col =>
          if base ≤ acc2.length then acc2 else acc2 ++ [waveSpec level cols row col])
        acc)
    []

/-- The enemy list built by `initWave`: each generated spec made `active` with
`hitFlash = 0`. -/
def waveEnemies (level : Nat) : List Enemy :=
  (generateWave level).map fun e =>
    { x := e.x, y := e.y, width := e.width, height := e.height,
      active := true, type := e.type, health := e.health,
      speed := e.speed, direction := e.direction, hitFlash := 0 }

/-- `initWave`: installs the wave for `level` and clears both transition flags. -/
def initWave (level : Nat) (s : GameState) : GameState :=
  { s with enemies := waveEnemies level, levelComplete := false, levelTransition := false }

/-- `resetGame`: resets the session state and installs the level-1 wave.  The
source mutates the listed fields of the shared state and leaves the rest
(player `y`/size, `transitionTimer`, `paused`) untouched. -/
def resetGame (s : GameState) : GameState :=
  initWave 1
    { s with
      player := { s.player with x := CANVAS_WIDTH / 2 - PLAYER_WIDTH / 2 }
      bullets := []
      explosions := []
      score := 0
      lives := INITIAL_LIVES
      level := 1
      gameOver := false
      levelComplete := false
      levelTransition := false
      started := true }

/-- The initial value of `gameStateRef`. -/
def initialState : GameState :=
  { player := { x := CANVAS_WIDTH / 2 - PLAYER_WIDTH / 2,
                y := CANVAS_HEIGHT - PLAYER_HEIGHT - 20,
                width := PLAYER_WIDTH, height := PLAYER_HEIGHT }
    bullets := []
    enemies := []
    explosions := []
    score := 0
    lives := INITIAL_LIVES
    level := 1
    gameOver := false
    levelComplete := false
    levelTransition := false
    transitionTimer := 0
    paused := false
    started := false }

/-- `spawnExplosion`: pushes a fresh particle (radius 5, alpha 1). -/
def spawnExplosion (x : ℚ) (y : ℚ) (size : ℚ) (color : String) : Explosion :=
  { x := x, y := y, radius := 5, maxRadius := size, alpha := 1, color := color }

/-- The two clamped move updates of the input-handling block, in source order:
left first (`max(10, x - PLAYER_SPEED)`), then right
(`min(CANVAS_WIDTH - PLAYER_WIDTH - 10, x + PLAYER_SPEED)`). -/
def applyMoves (inp : Input) (x : ℚ) : ℚ :=
  let x1 := if inp.left = true then max 10 (x - PLAYER_SPEED) else x
  if inp.right = true then min (CANVAS_WIDTH - PLAYER_WIDTH - 10) (x1 + PLAYER_SPEED) else x1

/-- Input application (step 1 of a `Playing` frame): moves, then the rate-limited
fire check against `lastShootRef`. -/
def inputPass (inp : Input) (now : Int) (s : GameState) (lastShoot : Int) :
    GameState × Int :=
  let px := applyMoves inp s.player.x
  let s1 := { s with player := { s.player with x := px } }
  if inp.fire = true ∧ now - lastShoot > SHOOT_COOLDOWN then
    ({ s1 with bullets := s1.bullets ++
        [{ x := px + PLAYER_WIDTH / 2 - BULLET_WIDTH / 2, y := s1.player.y,
           width := BULLET_WIDTH, height := BULLET_HEIGHT, active := true }] }, now)
  else (s1, lastShoot)

/-- Bullet advance (step 2): every bullet moves up by `BULLET_SPEED`, and the
pool keeps those with `y > -BULLET_HEIGHT` that are still active. -/
def bulletsMove (s : GameState) : GameState :=
  let moved := s.bullets.map (fun b => { b with y := b.y - BULLET_SPEED })
  { s with bullets := moved.filter (fun b => decide (b.y > -BULLET_HEIGHT) && b.active) }

/-- The per-enemy body of the enemy-advance `forEach`: active enemies move by
`speed * direction` and their `hitFlash` decays by `0.1` when positive. -/
def advanceOne (e : Enemy) : Enemy :=
  if e.active = true then
    { e with x := e.x + e.speed * e.direction,
             hitFlash := if e.hitFlash > 0 then e.hitFlash - 1 / 10 else e.hitFlash }
  else e

/-- The edge condition accumulated into `hitEdge`, tested on a moved enemy. -/
def atEdge (e : Enemy) : Bool :=
  e.active && (decide (e.x ≤ 10) || decide (e.x ≥ CANVAS_WIDTH - ENEMY_WIDTH - 10))

/-- The synchronized bounce applied when `hitEdge` is set: every active enemy
reverses direction and drops by 20. -/
def bounceOne (e : Enemy) : Enemy :=
  if e.active = true then { e with direction := e.direction * (-1), y := e.y + 20 } else e

/-- Enemy advance (step 3): move every active enemy, then bounce the whole
formation when any moved active enemy is at an edge. -/
def advanceEnemies (es : List Enemy) : List Enemy :=
  let moved := es.map advanceOne
  if moved.any atEdge then moved.map bounceOne else moved

/-- Step 3 lifted to the game state. -/
def advanceEnemiesState (s : GameState) : GameState :=
  { s with enemies := advanceEnemies s.enemies }

/-- The body of the inner `forEach` of the bullet-enemy collision pass, run for
one enemy against the current bullet.  The accumulator carries the bullet (whose
`active` flag the body can clear), the already-processed enemies, the score and
the explosion pool.  Note the source tests `enemy.active` here but not
`bullet.active`. -/
def hitStep (level : Nat) (acc : Bullet × List Enemy × Int × List Explosion)
    (e : Enemy) : Bullet × List Enemy × Int × List Explosion :=
  let b := acc.1
  let es := acc.2.1
  let sc := acc.2.2.1
  let xs := acc.2.2.2
  if e.active = false then (b, es ++ [e], sc, xs)
  else if checkCollision b.toEntity e.toEntity then
    let h := e.health - 1
    if h ≤ 0 then
      ({ b with active := false },
       es ++ [{ e with health := h, hitFlash := 1, active := false }],
       sc + 100 * (level : Int),
       xs ++ [spawnExplosion (e.x + ENEMY_WIDTH / 2) (e.y + ENEMY_HEIGHT / 2) 35 "#ff00ff"])
    else
      ({ b with active := false },
       es ++ [{ e with health := h, hitFlash := 1 }],
       sc,
       xs ++ [spawnExplosion b.x b.y 15 "#ffff00"])
  else (b, es ++ [e], sc, xs)

/-- The body of the outer `forEach` of the bullet-enemy collision pass: inactive
bullets are skipped (`if (!bullet.active) return`); an active bullet is folded
through the whole enemy pool. -/
def bulletStep (level : Nat) (acc : List Bullet × List Enemy × Int × List Explosion)
    (b : Bullet) : List Bullet × List Enemy × Int × List Explosion :=
  let bs := acc.1
  let es := acc.2.1
  let sc := acc.2.2.1
  let xs := acc.2.2.2
  if b.active = false then (bs ++ [b], es, sc, xs)
  else
    let r := es.foldl (hitStep level) (b, [], sc, xs)
    (bs ++ [r.1], r.2.1, r.2.2.1, r.2.2.2)

/-- Bullet-enemy collision (step 4). -/
def bulletEnemyPass (s : GameState) : GameState :=
  let r := s.bullets.foldl (bulletStep s.level) ([], s.enemies, s.score, s.explosions)
  { s with bullets := r.1, enemies := r.2.1, score := r.2.2.1, explosions := r.2.2.2 }

/-- The body of the player-enemy `forEach` for one enemy: breach
(`y > CANVAS_HEIGHT - 100`) deactivates; a player intersection additionally
costs a life, spawns an explosion and may set `gameOver`.  The accumulator
carries processed enemies, lives, the `gameOver` flag and the explosion pool. -/
def playerStep (p : Entity) (acc : List Enemy × Int × Bool × List Explosion)
    (e : Enemy) : List Enemy × Int × Bool × List Explosion :=
  let es := acc.1
  let lives := acc.2.1
  let go := acc.2.2.1
  let xs := acc.2.2.2
  if e.active = false then (es ++ [e], lives, go, xs)
  else if checkCollision p e.toEntity || decide (e.y > CANVAS_HEIGHT - 100) then
    let e1 := if e.y > CANVAS_HEIGHT - 100 then { e with active := false } else e
    if checkCollision p e.toEntity then
      (es ++ [{ e1 with active := false }], lives - 1,
       go || decide (lives - 1 ≤ 0),
       xs ++ [spawnExplosion (p.x + PLAYER_WIDTH / 2) (p.y + PLAYER_HEIGHT / 2) 50 "#ff0044"])
    else (es ++ [e1], lives, go, xs)
  else (es ++ [e], lives, go, xs)

/-- Player-enemy collision and breach (step 5). -/
def playerEnemyPass (s : GameState) : GameState :=
  let r := s.enemies.foldl (playerStep s.player) ([], s.lives, s.gameOver, s.explosions)
  { s with enemies := r.1, lives := r.2.1, gameOver := r.2.2.1, explosions := r.2.2.2 }

/-- Wave-clear check (step 6): an empty active pool, with neither transition
flag set, starts the level transition with a 2000 ms timer. -/
def waveClearPass (s : GameState) : GameState :=
  if s.enemies.countP (fun e => e.active) = 0 ∧ s.levelComplete = false ∧
      s.levelTransition = false then
    { s with levelComplete := true, levelTransition := true, transitionTimer := 2000 }
  else s

/-- Explosion advance (step 7): radius grows by 2, alpha fades by 0.04, and
faded particles are pruned. -/
def explosionsPass (s : GameState) : GameState :=
  let grown := s.explosions.map (fun ex => { ex with radius := ex.radius + 2, alpha := ex.alpha - 4 / 100 })
  { s with explosions := grown.filter (fun ex => decide (ex.alpha > 0)) }

/-- The level-transition branch of the frame: the timer loses 16 per frame and,
on expiry, the level increments and `initWave` installs the next wave (which
also clears the transition flags, returning the machine to `Playing`). -/
def transitionTick (s : GameState) : GameState :=
  let s1 := { s with transitionTimer := s.transitionTimer - 16 }
  if s1.transitionTimer ≤ 0 then initWave (s1.level + 1) { s1 with level := s1.level + 1 }
  else s1

/-- One frame of the simulation core (`gameLoop` without the drawing code).
Title and game-over frames update nothing; a transition frame runs the timer; a
`Playing` frame runs the seven passes in source order.  Returns the updated
state together with the updated `lastShootRef` value. -/
def gameLoopTick (inp : Input) (now : Int) (s : GameState) (lastShoot : Int) :
    GameState × Int :=
  if s.started = false then (s, lastShoot)
  else if s.gameOver = true then (s, lastShoot)
  else if s.levelTransition = true then (transitionTick s, lastShoot)
  else
    let r := inputPass inp now s lastShoot
    (explosionsPass (waveClearPass (playerEnemyPass (bulletEnemyPass
       (advanceEnemiesState (bulletsMove r.1))))), r.2)

/-- States of the pair `(gameStateRef, lastShootRef)` reachable from the mount
value by frames (with arbitrary held-key snapshots and timestamps) and by the
keyboard handlers that call `resetGame` (space before the game has started, or
the restart key while game over). -/
inductive Reachable : GameState → Int → Prop where
  | init : Reachable initialState 0
  | frame (inp : Input) (now : Int) {s : GameState} {ls : Int} :
      Reachable s ls → Reachable (gameLoopTick inp now s ls).1 (gameLoopTick inp now s ls).2
  | reset {s : GameState} {ls : Int} :
      Reachable s ls → s.started = false ∨ s.gameOver = true →
      Reachable (resetGame s) ls

/-! ## Wave generator: closed form -/

theorem waveInner_eq (level cols base row : Nat) :
    ∀ (c : Nat) (acc : List EnemySpec), acc.length ≤ base →
      (List.range c).foldl
          (fun acc2 col => if base ≤ acc2.length then acc2 else acc2 ++ [waveSpec level cols row col])
          acc
        = acc ++ (List.range (min c (base - acc.length))).map (waveSpec level cols row) := by
  intro c
  induction c with
  | zero => intro acc hacc; simp
  | succ n ih =>
    intro acc hacc
    rw [List.range_succ, List.foldl_append, ih acc hacc]
    simp only [List.foldl_cons, List.foldl_nil]
    have hlen : (acc ++ (List.range (min n (base - acc.length))).map (waveSpec level cols row)).length
        = acc.length + min n (base - acc.length) := by simp
    rw [hlen]
    by_cases hb : base ≤ acc.length + min n (base - acc.length)
    · rw [if_pos hb]
      have hmm : min (n + 1) (base - acc.length) = min n (base - acc.length) := by omega
      rw [hmm]
    · rw [if_neg hb]
      have h2 : min n (base - acc.length) = n := by omega
      have h1 : min (n + 1) (base - acc.length) = n + 1 := by omega
      rw [h2, h1, List.range_succ, List.map_append, ← List.append_assoc]
      simp

theorem waveRows_cases (level : Nat) :
    waveRows level = 2 ∨ waveRows level = 3 ∨ waveRows level = 4 := by
  unfold waveRows; omega

theorem waveBase_ge (level : Nat) : 4 ≤ waveBase level := by
  unfold waveBase; omega

theorem waveCols_pos (level : Nat) : 0 < waveCols level := by
  have h4 := waveRows_cases level
  have hb := waveBase_ge level
  unfold waveCols
  rcases h4 with h | h | h <;> rw [h] <;> omega

theorem waveBase_le_mul (level : Nat) :
    waveBase level ≤ waveRows level * waveCols level := by
  have h4 := waveRows_cases level
  unfold waveCols
  rcases h4 with h | h | h <;> rw [h] <;> omega

theorem waveOuter_eq (level : Nat) (r : Nat) :
    (List.range r).foldl
        (fun acc row =>
          (List.range (waveCols level)).foldl
            (fun acc2 col =>
              if waveBase level ≤ acc2.length then acc2
              else acc2 ++ [waveSpec level (waveCols level) row col])
            acc)
        []
      = (List.range (min (waveBase level) (r * waveCols level))).map
          (fun i => waveSpec level (waveCols level) (i / waveCols level) (i % waveCols level)) := by
  have hc := waveCols_pos level
  induction r with
  | zero => simp
  | succ n ih =>
    rw [List.range_succ, List.foldl_append, ih]
    simp only [List.foldl_cons, List.foldl_nil]
    rw [waveInner_eq level (waveCols level) (waveBase level) n (waveCols level) _
      (by simp only [List.length_map, List.length_range]; omega)]
    simp only [List.length_map, List.length_range]
    rcases le_or_lt (waveBase level) (n * waveCols level) with hba | hba
    · have ha : min (waveBase level) (n * waveCols level) = waveBase level := by omega
      have hmul : (n + 1) * waveCols level = n * waveCols level + waveCols level := by ring
      have hmin : min (waveBase level) ((n + 1) * waveCols level) = waveBase level := by
        rw [hmul]; omega
      rw [ha, hmin, Nat.sub_self]
      simp
    · have ha : min (waveBase level) (n * waveCols level) = n * waveCols level := by omega
      rw [ha]
      have hmul : (n + 1) * waveCols level = n * waveCols level + waveCols level := by ring
      have hmin : min (waveBase level) ((n + 1) * waveCols level)
          = n * waveCols level + min (waveCols level) (waveBase level - n * waveCols level) := by
        rw [hmul]
        generalize n * waveCols level = m at *
        omega
      rw [hmin, List.range_add, List.map_append, List.map_map]
      congr 1
      apply List.map_congr_left
      intro j hj
      have hjc : j < waveCols level := by
        have := List.mem_range.mp hj
        omega
      have hdiv : (n * waveCols level + j) / waveCols level = n := by
        rw [Nat.mul_comm, Nat.mul_add_div hc, Nat.div_eq_of_lt hjc, Nat.add_zero]
      have hmod : (n * waveCols level + j) % waveCols level = j := by
        rw [Nat.mul_add_mod', Nat.mod_eq_of_lt hjc]
      simp only [Function.comp]
      rw [hdiv, hmod]

theorem generateWave_eq (level : Nat) :
    generateWave level
      = (List.range (waveBase level)).map
          (fun i => waveSpec level (waveCols level) (i / waveCols level) (i % waveCols level)) := by
  have h := waveOuter_eq level (waveRows level)
  have hmin : min (waveBase level) (waveRows level * waveCols level) = waveBase level :=
    Nat.min_eq_left (waveBase_le_mul level)
  rw [hmin] at h
  exact h

/-! ## Claim C1: wave generator contract -/

/-- C1: for every level L ≥ 1, `generateWave L` is deterministic and returns
exactly `4 + floor(L * 1.5)` specs, laid out row-major over
`rows = min(2 + floor(L / 3), 4)` rows with 60-unit horizontal and 50-unit
vertical spacing starting 60 units from the top; each spec has
`type = row mod 3`, `health = 1 + floor(L / 4)`, `speed = 1 + L * 0.15` and
`direction = +1`.  (Determinism is the first conjunct; the generator is a pure
function of the level.) -/
theorem C1_generateWave_formation (level : Nat) (_hpos : 1 ≤ level) :
    (∀ l2 : Nat, l2 = level → generateWave l2 = generateWave level) ∧
    (generateWave level).length = 4 + 3 * level / 2 ∧
    ∀ i : Nat, ∀ hi : i < (generateWave level).length,
      i / waveCols level < min (2 + level / 3) 4 ∧
      (generateWave level).get ⟨i, hi⟩ =
        { x := (600 - ((waveCols level : ℚ) - 1) * 60) / 2 + ((i % waveCols level : Nat) : ℚ) * 60
          y := 60 + ((i / waveCols level : Nat) : ℚ) * 50
          width := 36
          height := 28
          type := (i / waveCols level) % 3
          health := 1 + (level / 4 : Nat)
          speed := 1 + (level : ℚ) * (15 / 100)
          direction := 1 } := by
  refine ⟨fun l2 hl => by rw [hl], ?_, ?_⟩
  · rw [generateWave_eq]; simp [waveBase]
  · intro i hi
    have hi2 : i < waveBase level := by
      rw [generateWave_eq] at hi; simpa using hi
    have hrow : i / waveCols level < waveRows level :=
      (Nat.div_lt_iff_lt_mul (waveCols_pos level)).mpr
        (lt_of_lt_of_le hi2 (waveBase_le_mul level))
    refine ⟨by simpa [waveRows] using hrow, ?_⟩
    simp only [List.get_eq_getElem]
    rw [List.getElem_of_eq (generateWave_eq level)]
    simp only [List.getElem_map, List.getElem_range]
    rfl

/-- Witness for C1 at level 1. -/
theorem C1_generateWave_formation_witness :
    (∀ l2 : Nat, l2 = 1 → generateWave l2 = generateWave 1) ∧
    (generateWave 1).length = 4 + 3 * 1 / 2 ∧
    ∀ i : Nat, ∀ hi : i < (generateWave 1).length,
      i / waveCols 1 < min (2 + 1 / 3) 4 ∧
      (generateWave 1).get ⟨i, hi⟩ =
        { x := (600 - ((waveCols 1 : ℚ) - 1) * 60) / 2 + ((i % waveCols 1 : Nat) : ℚ) * 60
          y := 60 + ((i / waveCols 1 : Nat) : ℚ) * 50
          width := 36
          height := 28
          type := (i / waveCols 1) % 3
          health := 1 + (1 / 4 : Nat)
          speed := 1 + (1 : ℚ) * (15 / 100)
          direction := 1 } :=
  C1_generateWave_formation 1 (by decide)

/-! ## Claim C10: collision symmetry -/

/-- C10: the axis-aligned bounding-box test `checkCollision` is symmetric. -/
theorem C10_checkCollision_symm (a b : Entity) :
    checkCollision a b = checkCollision b a := by
  unfold checkCollision
  simp only [gt_iff_lt]
  generalize decide (a.x < b.x + b.width) = p
  generalize decide (b.x < a.x + a.width) = q
  generalize decide (a.y < b.y + b.height) = r
  generalize decide (b.y < a.y + a.height) = s
  cases p <;> cases q <;> cases r <;> cases s <;> rfl

/-! ## Claim C6: reset idempotence -/

/-- C6: `resetGame` is idempotent — calling it twice in a row yields exactly the
state of calling it once: player back at the start column (the vertical
placement is never touched by the reset), empty bullet and explosion pools,
score 0, lives 3, level 1, started, not game over, no pending transition, and a
fresh level-1 wave. -/
theorem C6_resetGame_idempotent (s : GameState) :
    resetGame (resetGame s) = resetGame s ∧
    (resetGame s).score = 0 ∧
    (resetGame s).lives = 3 ∧
    (resetGame s).level = 1 ∧
    (resetGame s).started = true ∧
    (resetGame s).gameOver = false ∧
    (resetGame s).bullets = [] ∧
    (resetGame s).explosions = [] ∧
    (resetGame s).enemies = waveEnemies 1 ∧
    (resetGame s).levelComplete = false ∧
    (resetGame s).levelTransition = false ∧
    (resetGame s).player.x = 280 ∧
    (resetGame s).player.y = s.player.y := by
  refine ⟨rfl, rfl, rfl, rfl, rfl, rfl, rfl, rfl, rfl, rfl, rfl, ?_, rfl⟩
  norm_num [resetGame, initWave, CANVAS_WIDTH, PLAYER_WIDTH]

/-! ## Claim C8: simultaneous left and right -/

/-- C8: when move-left and move-right are both held, both clamped updates are
applied, left first then right, so the result is the right-clamp applied to the
left-clamped position — a defined precedence, not an error and not the sum of
the two deltas: at x = 10 the summed deltas would give 10 but the pass gives
18. -/
theorem C8_simultaneous_moves (f : Bool) (x : ℚ) :
    applyMoves { left := true, right := true, fire := f } x
        = min (CANVAS_WIDTH - PLAYER_WIDTH - 10) (max 10 (x - PLAYER_SPEED) + PLAYER_SPEED) ∧
    applyMoves { left := true, right := true, fire := f } 10 = 18 ∧
    (10 : ℚ) - PLAYER_SPEED + PLAYER_SPEED = 10 ∧
    (18 : ℚ) ≠ 10 := by
  refine ⟨rfl, ?_, by norm_num [PLAYER_SPEED], by norm_num⟩
  norm_num [applyMoves, PLAYER_SPEED, CANVAS_WIDTH, PLAYER_WIDTH]

/-! ## Claim C7: synchronized formation bounce -/

/-- C7: in the enemy-advance step, if any active enemy sits at an edge
(`x ≤ 10` or `x ≥ CANVAS_WIDTH - ENEMY_WIDTH - 10`) after moving, then every
active enemy of the formation has its direction negated and its `y` increased by
exactly 20 in that same tick; if no moved active enemy touches an edge, the step
changes no direction and no `y`. -/
theorem C7_synchronized_bounce (es : List Enemy) :
    ((∃ e ∈ es.map advanceOne, e.active = true ∧ (e.x ≤ 10 ∨ e.x ≥ CANVAS_WIDTH - ENEMY_WIDTH - 10)) →
      advanceEnemies es = es.map (fun e => bounceOne (advanceOne e)) ∧
      ∀ e ∈ es, e.active = true →
        (bounceOne (advanceOne e)).direction = -e.direction ∧
        (bounceOne (advanceOne e)).y = e.y + 20) ∧
    ((¬ ∃ e ∈ es.map advanceOne, e.active = true ∧ (e.x ≤ 10 ∨ e.x ≥ CANVAS_WIDTH - ENEMY_WIDTH - 10)) →
      advanceEnemies es = es.map advanceOne ∧
      ∀ e ∈ es, (advanceOne e).direction = e.direction ∧ (advanceOne e).y = e.y) := by
  constructor
  · intro hex
    have hany : (es.map advanceOne).any atEdge = true := by
      rw [List.any_eq_true]
      obtain ⟨e, hmem, hact, hedge⟩ := hex
      refine ⟨e, hmem, ?_⟩
      simp only [atEdge, hact, Bool.true_and, Bool.or_eq_true, decide_eq_true_eq]
      simpa using hedge
    constructor
    · unfold advanceEnemies
      rw [if_pos hany, List.map_map]
      rfl
    · intro e hme hact
      constructor
      · simp [bounceOne, advanceOne, hact]
      · simp [bounceOne, advanceOne, hact]
  · intro hnex
    have hany : (es.map advanceOne).any atEdge = false := by
      cases hb : (es.map advanceOne).any atEdge with
      | false => rfl
      | true =>
        exfalso
        obtain ⟨e, hmem, hAt⟩ := List.any_eq_true.mp hb
        simp only [atEdge, Bool.and_eq_true, Bool.or_eq_true, decide_eq_true_eq] at hAt
        exact hnex ⟨e, hmem, hAt.1, by simpa using hAt.2⟩
    constructor
    · unfold advanceEnemies
      rw [if_neg (by simp [hany])]
    · intro e hme
      refine ⟨?_, ?_⟩ <;> unfold advanceOne <;> split <;> rfl

/-- A stationary active enemy parked on the left edge. -/
def edgeEnemy : Enemy :=
  { x := 5, y := 100, width := 36, height := 28, active := true, type := 0,
    health := 1, speed := 0, direction := 1, hitFlash := 0 }

/-- A stationary active enemy in the middle of the field. -/
def midEnemy : Enemy :=
  { x := 100, y := 200, width := 36, height := 28, active := true, type := 1,
    health := 2, speed := 0, direction := 1, hitFlash := 0 }

/-- Witness for C7: a formation with one enemy at the left edge bounces as a
whole; a formation away from the edges does not change direction or height. -/
theorem C7_synchronized_bounce_witness :
    (advanceEnemies [edgeEnemy, midEnemy]
        = [edgeEnemy, midEnemy].map (fun e => bounceOne (advanceOne e)) ∧
      ∀ e ∈ [edgeEnemy, midEnemy], e.active = true →
        (bounceOne (advanceOne e)).direction = -e.direction ∧
        (bounceOne (advanceOne e)).y = e.y + 20) ∧
    (advanceEnemies [midEnemy] = [midEnemy].map advanceOne ∧
      ∀ e ∈ [midEnemy], (advanceOne e).direction = e.direction ∧ (advanceOne e).y = e.y) :=
  ⟨(C7_synchronized_bounce [edgeEnemy, midEnemy]).1
      (by norm_num [advanceOne, edgeEnemy, midEnemy, CANVAS_WIDTH, ENEMY_WIDTH]),
   (C7_synchronized_bounce [midEnemy]).2
      (by norm_num [advanceOne, midEnemy, CANVAS_WIDTH, ENEMY_WIDTH])⟩

/-! ## Claim C2: one hit per bullet?

The source checks `bullet.active` once per bullet, before the inner enemy loop,
and the inner loop never re-checks it.  A bullet deactivated by its first
intersecting enemy is therefore still tested against every later enemy of the
same tick, and each intersecting active enemy loses health. -/

/-- The effect of one bullet (at a fixed position) on one enemy in the inner
collision loop: an intersecting active enemy takes a point of damage and dies if
its health reaches 0; every other enemy is untouched.  This does not depend on
the bullet's `active` flag because the inner loop never reads it. -/
def bulletHits (bEnt : Entity) (e : Enemy) : Enemy :=
  if e.active = true ∧ checkCollision bEnt e.toEntity = true then
    if e.health - 1 ≤ 0 then { e with health := e.health - 1, hitFlash := 1, active := false }
    else { e with health := e.health - 1, hitFlash := 1 }
  else e

theorem hitStep_enemies (level : Nat) (b : Bullet) (acc : List Enemy) (sc : Int)
    (xs : List Explosion) (e : Enemy) :
    (hitStep level (b, acc, sc, xs) e).2.1 = acc ++ [bulletHits b.toEntity e] := by
  by_cases ha : e.active = false
  · simp [hitStep, bulletHits, ha]
  · have ha2 : e.active = true := by revert ha; cases e.active <;> simp
    by_cases hc : checkCollision b.toEntity e.toEntity = true
    · by_cases hh : e.health - 1 ≤ 0
      · simp [hitStep, bulletHits, ha2, hc, hh]
      · simp [hitStep, bulletHits, ha2, hc, hh]
    · simp [hitStep, bulletHits, ha2, hc]

theorem hitStep_bullet (level : Nat) (b : Bullet) (acc : List Enemy) (sc : Int)
    (xs : List Explosion) (e : Enemy) :
    ((hitStep level (b, acc, sc, xs) e).1).toEntity = b.toEntity := by
  by_cases ha : e.active = false
  · simp [hitStep, ha]
  · have ha2 : e.active = true := by revert ha; cases e.active <;> simp
    by_cases hc : checkCollision b.toEntity e.toEntity = true
    · by_cases hh : e.health - 1 ≤ 0
      · simp [hitStep, ha2, hc, hh]
      · simp [hitStep, ha2, hc, hh]
    · simp [hitStep, ha2, hc]

theorem bulletFold_enemies (level : Nat) :
    ∀ (es : List Enemy) (b : Bullet) (acc : List Enemy) (sc : Int) (xs : List Explosion),
      (es.foldl (hitStep level) (b, acc, sc, xs)).2.1 = acc ++ es.map (bulletHits b.toEntity) := by
  intro es
  induction es with
  | nil => intro b acc sc xs; simp
  | cons e rest ih =>
    intro b acc sc xs
    rw [List.foldl_cons]
    calc (rest.foldl (hitStep level) (hitStep level (b, acc, sc, xs) e)).2.1
        = (hitStep level (b, acc, sc, xs) e).2.1
            ++ rest.map (bulletHits ((hitStep level (b, acc, sc, xs) e).1).toEntity) :=
          ih _ _ _ _
      _ = (acc ++ [bulletHits b.toEntity e]) ++ rest.map (bulletHits b.toEntity) := by
          rw [hitStep_enemies, hitStep_bullet]
      _ = acc ++ (e :: rest).map (bulletHits b.toEntity) := by simp

/-- C2 amended: the pass checks `bullet.active` once per bullet, before the
enemy loop, not before each pair test, so a bullet deactivated by its first
intersecting enemy is still tested against every later enemy in the same tick:
an active bullet damages every active enemy whose box intersects it, not at most
one. -/
theorem C2_bullet_pierces (level : Nat) (b : Bullet) (bs : List Bullet)
    (es : List Enemy) (sc : Int) (xs : List Explosion) (hb : b.active = true) :
    (bulletStep level (bs, es, sc, xs) b).2.1 = es.map (bulletHits b.toEntity) ∧
    ∀ e ∈ es, e.active = true → checkCollision b.toEntity e.toEntity = true →
      (bulletHits b.toEntity e).health = e.health - 1 := by
  constructor
  · unfold bulletStep
    rw [if_neg (by simp [hb])]
    simpa using bulletFold_enemies level es b [] sc xs
  · intro e hme hact hcol
    simp only [bulletHits, hact, hcol, and_self, if_pos]
    split <;> rfl

/-- A playing state holding one active bullet whose box intersects two
overlapping active enemies (health 5 each, stationary). -/
def piercedState : GameState :=
  { player := { x := 280, y := 650, width := 40, height := 30 }
    bullets := [{ x := 100, y := 100, width := 4, height := 12, active := true }]
    enemies := [{ x := 80, y := 90, width := 36, height := 28, active := true, type := 0,
                  health := 5, speed := 0, direction := 1, hitFlash := 0 },
                { x := 99, y := 95, width := 36, height := 28, active := true, type := 0,
                  health := 5, speed := 0, direction := 1, hitFlash := 0 }]
    explosions := []
    score := 0
    lives := 3
    level := 1
    gameOver := false
    levelComplete := false
    levelTransition := false
    transitionTimer := 0
    paused := false
    started := true }

/-- The empty held-key snapshot. -/
def noInput : Input := { left := false, right := false, fire := false }

/-- C2 counterexample: in one `Playing` frame of `piercedState`, its single
bullet decrements the health of BOTH intersecting enemies (5,5 becomes 4,4), so
the bullet is tested against, and scores on, an enemy after the one that
deactivated it. -/
theorem C2_counterexample :
    piercedState.bullets.length = 1 ∧
    piercedState.enemies.map Enemy.health = [5, 5] ∧
    (gameLoopTick noInput 0 piercedState 0).1.enemies.map Enemy.health = [4, 4] := by
  refine ⟨rfl, rfl, ?_⟩
  norm_num [gameLoopTick, inputPass, applyMoves, bulletsMove, advanceEnemiesState,
    advanceEnemies, advanceOne, atEdge, bounceOne, bulletEnemyPass, bulletStep, hitStep,
    checkCollision, playerEnemyPass, playerStep, waveClearPass, explosionsPass,
    spawnExplosion, noInput, piercedState, CANVAS_WIDTH, CANVAS_HEIGHT, PLAYER_WIDTH,
    PLAYER_HEIGHT, PLAYER_SPEED, BULLET_SPEED, BULLET_WIDTH, BULLET_HEIGHT, ENEMY_WIDTH,
    ENEMY_HEIGHT, SHOOT_COOLDOWN, List.foldl]

/-- The bullet of `piercedState`, as a standalone value. -/
def pierceBullet : Bullet := { x := 100, y := 100, width := 4, height := 12, active := true }

/-- Witness for the amended C2 at a concrete active bullet and enemy pool. -/
theorem C2_bullet_pierces_witness :
    (bulletStep 1 ([], piercedState.enemies, 0, []) pierceBullet).2.1
        = piercedState.enemies.map (bulletHits pierceBullet.toEntity) ∧
    ∀ e ∈ piercedState.enemies, e.active = true →
      checkCollision pierceBullet.toEntity e.toEntity = true →
      (bulletHits pierceBullet.toEntity e).health = e.health - 1 :=
  C2_bullet_pierces 1 pierceBullet [] piercedState.enemies 0 [] rfl

/-! ## Claim C4: reaching zero lives forces game over in the same tick -/

theorem playerFold_gameOver (p : Entity) (L0 : Int) :
    ∀ (es : List Enemy) (acc : List Enemy) (lives : Int) (go : Bool) (xs : List Explosion),
      (lives ≤ 0 → lives < L0 → go = true) →
      (es.foldl (playerStep p) (acc, lives, go, xs)).2.1 ≤ 0 →
      (es.foldl (playerStep p) (acc, lives, go, xs)).2.1 < L0 →
      (es.foldl (playerStep p) (acc, lives, go, xs)).2.2.1 = true := by
  intro es
  induction es with
  | nil => intro acc lives go xs hP h1 h2; exact hP h1 h2
  | cons e rest ih =>
    intro acc lives go xs hP
    rw [List.foldl_cons]
    have hP2 : (playerStep p (acc, lives, go, xs) e).2.1 ≤ 0 →
        (playerStep p (acc, lives, go, xs) e).2.1 < L0 →
        (playerStep p (acc, lives, go, xs) e).2.2.1 = true := by
      by_cases ha : e.active = false
      · simpa [playerStep, ha] using hP
      · have ha2 : e.active = true := by revert ha; cases e.active <;> simp
        by_cases hc : checkCollision p e.toEntity = true
        · have hl : (playerStep p (acc, lives, go, xs) e).2.1 = lives - 1 := by
            simp [playerStep, ha2, hc]
          have hg2 : (playerStep p (acc, lives, go, xs) e).2.2.1
              = (go || decide (lives - 1 ≤ 0)) := by
            simp [playerStep, ha2, hc]
          rw [hl, hg2]
          intro h1 _
          simp [h1]
        · by_cases hy : e.y > CANVAS_HEIGHT - 100
          · simpa [playerStep, ha2, hc, hy] using hP
          · simpa [playerStep, ha2, hc, hy] using hP
    intro h1 h2
    exact ih (playerStep p (acc, lives, go, xs) e).1 (playerStep p (acc, lives, go, xs) e).2.1
      (playerStep p (acc, lives, go, xs) e).2.2.1 (playerStep p (acc, lives, go, xs) e).2.2.2
      hP2 h1 h2

theorem playerEnemyPass_gameOver (s : GameState) :
    (playerEnemyPass s).lives ≤ 0 → (playerEnemyPass s).lives < s.lives →
    (playerEnemyPass s).gameOver = true := by
  intro h1 h2
  exact playerFold_gameOver s.player s.lives s.enemies [] s.lives s.gameOver s.explosions
    (fun _ hlt => absurd hlt (lt_irrefl _)) h1 h2

theorem inputPass_lives (inp : Input) (now : Int) (s : GameState) (ls : Int) :
    ((inputPass inp now s ls).1).lives = s.lives := by
  unfold inputPass; split <;> rfl

theorem waveClearPass_lives (s : GameState) : (waveClearPass s).lives = s.lives := by
  unfold waveClearPass; split <;> rfl

theorem waveClearPass_gameOver (s : GameState) : (waveClearPass s).gameOver = s.gameOver := by
  unfold waveClearPass; split <;> rfl

theorem transitionTick_lives (s : GameState) : (transitionTick s).lives = s.lives := by
  simp only [transitionTick, initWave]; split <;> rfl

/-- C4: whenever a tick decrements `lives` to a value ≤ 0 (lives only change in
the player-collision step of a `Playing` tick), `gameOver` is set within that
same tick.  The source performs the `lives <= 0` check immediately after each
decrement, so the tick that takes lives to 0 is the tick that ends the game. -/
theorem C4_lives_zero_forces_gameOver (inp : Input) (now : Int) (s : GameState) (ls : Int)
    (hdrop : (gameLoopTick inp now s ls).1.lives < s.lives)
    (hzero : (gameLoopTick inp now s ls).1.lives ≤ 0) :
    (gameLoopTick inp now s ls).1.gameOver = true := by
  unfold gameLoopTick at hdrop hzero ⊢
  by_cases hs : s.started = false
  · rw [if_pos hs] at hdrop
    exact absurd hdrop (lt_irrefl _)
  rw [if_neg hs] at hdrop hzero ⊢
  by_cases hg : s.gameOver = true
  · rw [if_pos hg] at hdrop
    exact absurd hdrop (lt_irrefl _)
  rw [if_neg hg] at hdrop hzero ⊢
  by_cases ht : s.levelTransition = true
  · rw [if_pos ht] at hdrop
    rw [transitionTick_lives] at hdrop
    exact absurd hdrop (lt_irrefl _)
  rw [if_neg ht] at hdrop hzero ⊢
  have hXl : (bulletEnemyPass (advanceEnemiesState (bulletsMove
      (inputPass inp now s ls).1))).lives = s.lives := inputPass_lives inp now s ls
  have hres : (explosionsPass (waveClearPass (playerEnemyPass (bulletEnemyPass
      (advanceEnemiesState (bulletsMove (inputPass inp now s ls).1)))))).lives
      = (playerEnemyPass (bulletEnemyPass (advanceEnemiesState (bulletsMove
        (inputPass inp now s ls).1)))).lives :=
    waveClearPass_lives _
  have hresg : (explosionsPass (waveClearPass (playerEnemyPass (bulletEnemyPass
      (advanceEnemiesState (bulletsMove (inputPass inp now s ls).1)))))).gameOver
      = (playerEnemyPass (bulletEnemyPass (advanceEnemiesState (bulletsMove
        (inputPass inp now s ls).1)))).gameOver :=
    waveClearPass_gameOver _
  rw [hres] at hdrop hzero
  rw [hresg]
  exact playerEnemyPass_gameOver _ hzero (by rw [hXl]; exact hdrop)

/-- A playing state with lives 3 in which three distinct fresh enemies all
intersect the player, so the player-collision pass processes three collisions in
sequence in one tick. -/
def tripleHitState : GameState :=
  { player := { x := 280, y := 650, width := 40, height := 30 }
    bullets := []
    enemies := [{ x := 280, y := 640, width := 36, height := 28, active := true, type := 0,
                  health := 1, speed := 0, direction := 1, hitFlash := 0 },
                { x := 290, y := 640, width := 36, height := 28, active := true, type := 1,
                  health := 1, speed := 0, direction := 1, hitFlash := 0 },
                { x := 300, y := 640, width := 36, height := 28, active := true, type := 2,
                  health := 1, speed := 0, direction := 1, hitFlash := 0 }]
    explosions := []
    score := 0
    lives := 3
    level := 1
    gameOver := false
    levelComplete := false
    levelTransition := false
    transitionTimer := 0
    paused := false
    started := true }

/-- Witness for C4 (scenario B): starting from lives = 3, three player-enemy
collisions, each with a fresh enemy, drive lives to 0 and the third one sets
game over in the same tick. -/
theorem C4_lives_zero_forces_gameOver_witness :
    (gameLoopTick noInput 0 tripleHitState 0).1.lives = 0 ∧
    (gameLoopTick noInput 0 tripleHitState 0).1.gameOver = true := by
  have hl : (gameLoopTick noInput 0 tripleHitState 0).1.lives = 0 := by
    norm_num [gameLoopTick, inputPass, applyMoves, bulletsMove, advanceEnemiesState,
      advanceEnemies, advanceOne, atEdge, bounceOne, bulletEnemyPass, bulletStep, hitStep,
      checkCollision, playerEnemyPass, playerStep, waveClearPass, explosionsPass,
      spawnExplosion, noInput, tripleHitState, CANVAS_WIDTH, CANVAS_HEIGHT, PLAYER_WIDTH,
      PLAYER_HEIGHT, PLAYER_SPEED, BULLET_SPEED, BULLET_WIDTH, BULLET_HEIGHT, ENEMY_WIDTH,
      ENEMY_HEIGHT, SHOOT_COOLDOWN, List.foldl]
  refine ⟨hl, C4_lives_zero_forces_gameOver noInput 0 tripleHitState 0 ?_ (le_of_eq hl)⟩
  rw [hl]
  norm_num [tripleHitState]

/-- The wave for a level always holds `4 + floor(1.5 * level)` enemies. -/
theorem waveEnemies_length (level : Nat) :
    (waveEnemies level).length = 4 + 3 * level / 2 := by
  simp [waveEnemies, generateWave_eq, waveBase]

theorem inputPass_levelComplete (inp : Input) (now : Int) (s : GameState) (ls : Int) :
    ((inputPass inp now s ls).1).levelComplete = s.levelComplete := by
  unfold inputPass; split <;> rfl

theorem inputPass_levelTransition (inp : Input) (now : Int) (s : GameState) (ls : Int) :
    ((inputPass inp now s ls).1).levelTransition = s.levelTransition := by
  unfold inputPass; split <;> rfl

/-- C9: while playing, a tick whose active-enemy count (as measured by the
wave-clear check, after the collision passes) is 0 with no transition pending
sets the level-complete flag and enters the transition with
`transitionTimer = 2000`; each transition tick decrements the timer by exactly
16, and the tick on which it reaches ≤ 0 increments the level by exactly 1,
installs a full new wave of the new level size via the wave generator, and
returns the machine to playing. -/
theorem C9_level_progression (inp : Input) (now : Int) (s : GameState) (ls : Int) :
    (s.started = true → s.gameOver = false → s.levelTransition = false → s.levelComplete = false →
      (playerEnemyPass (bulletEnemyPass (advanceEnemiesState (bulletsMove
          (inputPass inp now s ls).1)))).enemies.countP (fun e => e.active) = 0 →
      (gameLoopTick inp now s ls).1.levelComplete = true ∧
      (gameLoopTick inp now s ls).1.levelTransition = true ∧
      (gameLoopTick inp now s ls).1.transitionTimer = 2000) ∧
    (s.started = true → s.gameOver = false → s.levelTransition = true →
      (gameLoopTick inp now s ls).1.transitionTimer = s.transitionTimer - 16 ∧
      (s.transitionTimer - 16 ≤ 0 →
        (gameLoopTick inp now s ls).1.level = s.level + 1 ∧
        (gameLoopTick inp now s ls).1.enemies = waveEnemies (s.level + 1) ∧
        (gameLoopTick inp now s ls).1.enemies.length = 4 + 3 * (s.level + 1) / 2 ∧
        (gameLoopTick inp now s ls).1.levelTransition = false ∧
        (gameLoopTick inp now s ls).1.levelComplete = false) ∧
      (0 < s.transitionTimer - 16 →
        (gameLoopTick inp now s ls).1.level = s.level ∧
        (gameLoopTick inp now s ls).1.levelTransition = true ∧
        (gameLoopTick inp now s ls).1.enemies = s.enemies)) := by
  constructor
  · intro hst hgo htr hcm hcount
    unfold gameLoopTick
    rw [if_neg (by simp [hst]), if_neg (by simp [hgo]), if_neg (by simp [htr])]
    have h5c : (playerEnemyPass (bulletEnemyPass (advanceEnemiesState (bulletsMove
        (inputPass inp now s ls).1)))).levelComplete = s.levelComplete :=
      inputPass_levelComplete inp now s ls
    have h5t : (playerEnemyPass (bulletEnemyPass (advanceEnemiesState (bulletsMove
        (inputPass inp now s ls).1)))).levelTransition = s.levelTransition :=
      inputPass_levelTransition inp now s ls
    have hcond : (playerEnemyPass (bulletEnemyPass (advanceEnemiesState (bulletsMove
        (inputPass inp now s ls).1)))).enemies.countP (fun e => e.active) = 0 ∧
        (playerEnemyPass (bulletEnemyPass (advanceEnemiesState (bulletsMove
          (inputPass inp now s ls).1)))).levelComplete = false ∧
        (playerEnemyPass (bulletEnemyPass (advanceEnemiesState (bulletsMove
          (inputPass inp now s ls).1)))).levelTransition = false :=
      ⟨hcount, by rw [h5c, hcm], by rw [h5t, htr]⟩
    show (explosionsPass (waveClearPass _)).levelComplete = true ∧
      (explosionsPass (waveClearPass _)).levelTransition = true ∧
      (explosionsPass (waveClearPass _)).transitionTimer = 2000
    unfold waveClearPass
    rw [if_pos hcond]
    exact ⟨rfl, rfl, rfl⟩
  · intro hst hgo htr
    unfold gameLoopTick
    rw [if_neg (by simp [hst]), if_neg (by simp [hgo]), if_pos htr]
    simp only [transitionTick, initWave]
    by_cases hT : s.transitionTimer - 16 ≤ 0
    · rw [if_pos hT]
      refine ⟨rfl, fun _ => ⟨rfl, rfl, waveEnemies_length _, rfl, rfl⟩, fun hlt => absurd hT (by omega)⟩
    · rw [if_neg hT]
      exact ⟨rfl, fun hle => absurd hle hT, fun _ => ⟨rfl, htr, rfl⟩⟩

def emptyWaveState : GameState :=
  { player := { x := 280, y := 650, width := 40, height := 30 }
    bullets := [], enemies := [], explosions := []
    score := 500, lives := 3, level := 2
    gameOver := false, levelComplete := false, levelTransition := false
    transitionTimer := 0, paused := false, started := true }

def transitionEndState : GameState :=
  { player := { x := 280, y := 650, width := 40, height := 30 }
    bullets := [], enemies := [], explosions := []
    score := 500, lives := 3, level := 1
    gameOver := false, levelComplete := true, levelTransition := true
    transitionTimer := 16, paused := false, started := true }

def transitionMidState : GameState :=
  { player := { x := 280, y := 650, width := 40, height := 30 }
    bullets := [], enemies := [], explosions := []
    score := 500, lives := 3, level := 1
    gameOver := false, levelComplete := true, levelTransition := true
    transitionTimer := 2000, paused := false, started := true }

/-- Witness for C9: a playing state with an empty pool enters the transition
with a 2000 ms timer; a transition state with 16 ms left levels up into a wave
of the new size; a transition state with 2000 ms left just counts down. -/
theorem C9_witness :
    ((gameLoopTick noInput 0 emptyWaveState 0).1.levelComplete = true ∧
     (gameLoopTick noInput 0 emptyWaveState 0).1.levelTransition = true ∧
     (gameLoopTick noInput 0 emptyWaveState 0).1.transitionTimer = 2000) ∧
    ((gameLoopTick noInput 0 transitionEndState 0).1.level = transitionEndState.level + 1 ∧
     (gameLoopTick noInput 0 transitionEndState 0).1.enemies
        = waveEnemies (transitionEndState.level + 1) ∧
     (gameLoopTick noInput 0 transitionEndState 0).1.enemies.length
        = 4 + 3 * (transitionEndState.level + 1) / 2 ∧
     (gameLoopTick noInput 0 transitionEndState 0).1.levelTransition = false ∧
     (gameLoopTick noInput 0 transitionEndState 0).1.levelComplete = false) ∧
    ((gameLoopTick noInput 0 transitionMidState 0).1.transitionTimer
        = transitionMidState.transitionTimer - 16 ∧
     (gameLoopTick noInput 0 transitionMidState 0).1.level = transitionMidState.level ∧
     (gameLoopTick noInput 0 transitionMidState 0).1.levelTransition = true ∧
     (gameLoopTick noInput 0 transitionMidState 0).1.enemies = transitionMidState.enemies) :=
  by
  refine ⟨(C9_level_progression noInput 0 emptyWaveState 0).1 rfl rfl rfl rfl rfl, ?_, ?_⟩
  · have h := ((C9_level_progression noInput 0 transitionEndState 0).2 rfl rfl rfl).2.1 (by decide)
    exact ⟨h.1, h.2.1, h.2.2.1, h.2.2.2.1, h.2.2.2.2⟩
  · have h0 := ((C9_level_progression noInput 0 transitionMidState 0).2 rfl rfl rfl).1
    have h := ((C9_level_progression noInput 0 transitionMidState 0).2 rfl rfl rfl).2.2 (by decide)
    exact ⟨h0, h.1, h.2.1, h.2.2⟩

/-! ## Claims C3 and C5: reachable-state invariants

In every reachable state the player's top edge sits at `y = 650` and every
active enemy is at `y ≤ 600` (the breach line deactivates anything beyond it in
the same tick it arrives, and a bounce lowers the formation by at most 20), so
an active enemy's box (height 28) can never reach the player's row: lives are
in fact never decremented along reachable play, and score only grows. -/

/-- An enemy respecting the vertical bound `c` while active (with the fixed
source height 28). -/
def EnemyBound (c : ℚ) (e : Enemy) : Prop :=
  e.active = true → e.y ≤ c ∧ e.height = 28

/-- The inductive invariant of reachable states: player pinned at `y = 650`
with clamped `x`, non-negative lives and score, and every active enemy above
the breach line. -/
def GameInv (s : GameState) : Prop :=
  s.player.y = 650 ∧ 10 ≤ s.player.x ∧ s.player.x ≤ 550 ∧
  0 ≤ s.lives ∧ 0 ≤ s.score ∧ ∀ e ∈ s.enemies, EnemyBound 600 e

theorem applyMoves_bounds (inp : Input) (x : ℚ) (h1 : 10 ≤ x) (h2 : x ≤ 550) :
    10 ≤ applyMoves inp x ∧ applyMoves inp x ≤ 550 := by
  have hw : CANVAS_WIDTH - PLAYER_WIDTH - 10 = (550 : ℚ) := by
    norm_num [CANVAS_WIDTH, PLAYER_WIDTH]
  have hs : PLAYER_SPEED = (8 : ℚ) := rfl
  simp only [applyMoves]
  rw [hw, hs]
  split_ifs
  · exact ⟨le_min (by norm_num) (by nlinarith [le_max_left (10 : ℚ) (x - 8)]), min_le_left _ _⟩
  · exact ⟨le_min (by norm_num) (by linarith), min_le_left _ _⟩
  · exact ⟨le_max_left _ _, max_le (by norm_num) (by linarith)⟩
  · exact ⟨h1, h2⟩

theorem waveEnemies_bound (level : Nat) :
    ∀ e ∈ waveEnemies level, EnemyBound 600 e := by
  intro e he _
  unfold waveEnemies at he
  rw [generateWave_eq] at he
  simp only [List.map_map, List.mem_map, List.mem_range, Function.comp] at he
  obtain ⟨i, hi, rfl⟩ := he
  have hrow : i / waveCols level < waveRows level :=
    (Nat.div_lt_iff_lt_mul (waveCols_pos level)).mpr
      (lt_of_lt_of_le hi (waveBase_le_mul level))
  have hrow4 : i / waveCols level ≤ 3 := by
    have := waveRows_cases level
    omega
  have hcast : ((i / waveCols level : Nat) : ℚ) ≤ 3 := by exact_mod_cast hrow4
  constructor
  · show 60 + ((i / waveCols level : Nat) : ℚ) * 50 ≤ 600
    nlinarith
  · show ENEMY_HEIGHT = 28
    norm_num [ENEMY_HEIGHT]

theorem advanceOne_fields (e : Enemy) :
    (advanceOne e).y = e.y ∧ (advanceOne e).height = e.height ∧
    (advanceOne e).active = e.active := by
  unfold advanceOne; split <;> exact ⟨rfl, rfl, rfl⟩

theorem bounceOne_fields (e : Enemy) :
    (bounceOne e).height = e.height ∧ (bounceOne e).active = e.active ∧
    (bounceOne e).y = (if e.active = true then e.y + 20 else e.y) := by
  unfold bounceOne; split <;> simp_all

theorem advanceEnemies_bound (es : List Enemy) (h : ∀ e ∈ es, EnemyBound 600 e) :
    ∀ e2 ∈ advanceEnemies es, EnemyBound 620 e2 := by
  intro e2 he2
  have he3 : e2 ∈ (if (es.map advanceOne).any atEdge = true
      then (es.map advanceOne).map bounceOne else es.map advanceOne) := he2
  clear he2
  split at he3
  · simp only [List.map_map, List.mem_map, Function.comp] at he3
    obtain ⟨e, hme, rfl⟩ := he3
    intro hact
    have hb := bounceOne_fields (advanceOne e)
    have ha := advanceOne_fields e
    have hacte : e.active = true := by
      rw [hb.2.1, ha.2.2] at hact; exact hact
    have hold := h e hme hacte
    refine ⟨?_, by rw [hb.1, ha.2.1, hold.2]⟩
    rw [hb.2.2, ha.2.2, hacte, if_pos rfl, ha.1]
    linarith [hold.1]
  · simp only [List.mem_map] at he3
    obtain ⟨e, hme, rfl⟩ := he3
    intro hact
    have ha := advanceOne_fields e
    have hacte : e.active = true := by rw [ha.2.2] at hact; exact hact
    have hold := h e hme hacte
    exact ⟨by rw [ha.1]; linarith [hold.1], by rw [ha.2.1, hold.2]⟩

theorem bulletHits_bound (c : ℚ) (bEnt : Entity) (e : Enemy) (h : EnemyBound c e) :
    EnemyBound c (bulletHits bEnt e) := by
  intro hact
  unfold bulletHits at hact ⊢
  by_cases hcond : e.active = true ∧ checkCollision bEnt e.toEntity = true
  · rw [if_pos hcond] at hact ⊢
    by_cases hh : e.health - 1 ≤ 0
    · rw [if_pos hh] at hact
      exact absurd hact (by simp)
    · rw [if_neg hh] at hact ⊢
      exact h hact
  · rw [if_neg hcond] at hact ⊢
    exact h hact

theorem hitStep_score_le (level : Nat) (b : Bullet) (acc : List Enemy) (sc : Int)
    (xs : List Explosion) (e : Enemy) :
    sc ≤ (hitStep level (b, acc, sc, xs) e).2.2.1 := by
  by_cases ha : e.active = false
  · simp [hitStep, ha]
  · have ha2 : e.active = true := by revert ha; cases e.active <;> simp
    by_cases hc : checkCollision b.toEntity e.toEntity = true
    · by_cases hh : e.health - 1 ≤ 0
      · have : (hitStep level (b, acc, sc, xs) e).2.2.1 = sc + 100 * (level : Int) := by
          simp [hitStep, ha2, hc, hh]
        rw [this]
        have h100 : (0 : Int) ≤ 100 * (level : Int) := by positivity
        linarith
      · simp [hitStep, ha2, hc, hh]
    · simp [hitStep, ha2, hc]

theorem hitFold_score_le (level : Nat) :
    ∀ (es : List Enemy) (b : Bullet) (acc : List Enemy) (sc : Int) (xs : List Explosion),
      sc ≤ (es.foldl (hitStep level) (b, acc, sc, xs)).2.2.1 := by
  intro es
  induction es with
  | nil => intro b acc sc xs; simp
  | cons e rest ih =>
    intro b acc sc xs
    rw [List.foldl_cons]
    calc sc ≤ (hitStep level (b, acc, sc, xs) e).2.2.1 := hitStep_score_le level b acc sc xs e
      _ ≤ _ := ih (hitStep level (b, acc, sc, xs) e).1 (hitStep level (b, acc, sc, xs) e).2.1
          (hitStep level (b, acc, sc, xs) e).2.2.1 (hitStep level (b, acc, sc, xs) e).2.2.2

theorem bulletStep_score_le (level : Nat) (accB : List Bullet) (es : List Enemy)
    (sc : Int) (xs : List Explosion) (b : Bullet) :
    sc ≤ (bulletStep level (accB, es, sc, xs) b).2.2.1 := by
  by_cases hb : b.active = false
  · have : (bulletStep level (accB, es, sc, xs) b).2.2.1 = sc := by
      unfold bulletStep; rw [if_pos hb]
    rw [this]
  · have : (bulletStep level (accB, es, sc, xs) b).2.2.1
        = (es.foldl (hitStep level) (b, [], sc, xs)).2.2.1 := by
      unfold bulletStep; rw [if_neg hb]
    rw [this]
    exact hitFold_score_le level es b [] sc xs

theorem bulletOuterFold_score_le (level : Nat) :
    ∀ (bs : List Bullet) (accB : List Bullet) (es : List Enemy) (sc : Int) (xs : List Explosion),
      sc ≤ (bs.foldl (bulletStep level) (accB, es, sc, xs)).2.2.1 := by
  intro bs
  induction bs with
  | nil => intro accB es sc xs; simp
  | cons b rest ih =>
    intro accB es sc xs
    rw [List.foldl_cons]
    calc sc ≤ (bulletStep level (accB, es, sc, xs) b).2.2.1 :=
          bulletStep_score_le level accB es sc xs b
      _ ≤ _ := ih (bulletStep level (accB, es, sc, xs) b).1
          (bulletStep level (accB, es, sc, xs) b).2.1
          (bulletStep level (accB, es, sc, xs) b).2.2.1
          (bulletStep level (accB, es, sc, xs) b).2.2.2

theorem bulletEnemyPass_score_le (s : GameState) : s.score ≤ (bulletEnemyPass s).score :=
  bulletOuterFold_score_le s.level s.bullets [] s.enemies s.score s.explosions

theorem bulletOuterFold_bound (level : Nat) (c : ℚ) :
    ∀ (bs : List Bullet) (accB : List Bullet) (es : List Enemy) (sc : Int) (xs : List Explosion),
      (∀ e ∈ es, EnemyBound c e) →
      ∀ e2 ∈ (bs.foldl (bulletStep level) (accB, es, sc, xs)).2.1, EnemyBound c e2 := by
  intro bs
  induction bs with
  | nil => intro accB es sc xs h e2 he2; exact h e2 he2
  | cons b rest ih =>
    intro accB es sc xs h e2 he2
    rw [List.foldl_cons] at he2
    have hstep : ∀ e3 ∈ (bulletStep level (accB, es, sc, xs) b).2.1, EnemyBound c e3 := by
      by_cases hb : b.active = false
      · intro e3 he3
        have heq : (bulletStep level (accB, es, sc, xs) b).2.1 = es := by
          unfold bulletStep; rw [if_pos hb]
        rw [heq] at he3
        exact h e3 he3
      · intro e3 he3
        have heq : (bulletStep level (accB, es, sc, xs) b).2.1
            = es.map (bulletHits b.toEntity) := by
          unfold bulletStep; rw [if_neg hb]
          simpa using bulletFold_enemies level es b [] sc xs
        rw [heq] at he3
        simp only [List.mem_map] at he3
        obtain ⟨e, hme, rfl⟩ := he3
        exact bulletHits_bound c _ e (h e hme)
    exact ih (bulletStep level (accB, es, sc, xs) b).1
      (bulletStep level (accB, es, sc, xs) b).2.1
      (bulletStep level (accB, es, sc, xs) b).2.2.1
      (bulletStep level (accB, es, sc, xs) b).2.2.2
      hstep e2 he2

theorem bulletEnemyPass_bound (c : ℚ) (s : GameState)
    (h : ∀ e ∈ s.enemies, EnemyBound c e) :
    ∀ e2 ∈ (bulletEnemyPass s).enemies, EnemyBound c e2 :=
  bulletOuterFold_bound s.level c s.bullets [] s.enemies s.score s.explosions h

theorem no_collision_of_low (p : Entity) (e : Enemy) (hp : p.y = 650)
    (hy : e.y ≤ 620) (hh : e.height = 28) :
    checkCollision p e.toEntity = false := by
  unfold checkCollision
  have h3 : ¬ (p.y < e.toEntity.y + e.toEntity.height) := by
    show ¬ (p.y < e.y + e.height)
    rw [hp, hh]
    intro hlt
    linarith
  rw [decide_eq_false h3]
  simp

theorem playerStep_enemies_shape (p : Entity) (acc : List Enemy) (lives : Int)
    (go : Bool) (xs : List Explosion) (e : Enemy) :
    ∃ e2 : Enemy, (playerStep p (acc, lives, go, xs) e).1 = acc ++ [e2] ∧
      (e2.active = true →
        e2 = e ∧ checkCollision p e.toEntity = false ∧ ¬ (e.y > CANVAS_HEIGHT - 100)) := by
  by_cases ha : e.active = false
  · exact ⟨e, by simp [playerStep, ha], fun hact => absurd hact (by simp [ha])⟩
  · have ha2 : e.active = true := by revert ha; cases e.active <;> simp
    by_cases hc : checkCollision p e.toEntity = true
    · refine ⟨{ (if e.y > CANVAS_HEIGHT - 100 then { e with active := false } else e) with
          active := false }, by simp [playerStep, ha2, hc], fun hact => absurd hact (by simp)⟩
    · by_cases hy : e.y > CANVAS_HEIGHT - 100
      · refine ⟨{ e with active := false }, by simp [playerStep, ha2, hc, hy],
          fun hact => absurd hact (by simp)⟩
      · refine ⟨e, by simp [playerStep, ha2, hc, hy], fun _ => ⟨rfl, ?_, hy⟩⟩
        revert hc; cases checkCollision p e.toEntity <;> simp

theorem playerFold_bound (p : Entity) :
    ∀ (es : List Enemy) (acc : List Enemy) (lives : Int) (go : Bool) (xs : List Explosion),
      (∀ e ∈ acc, EnemyBound 600 e) → (∀ e ∈ es, EnemyBound 620 e) →
      ∀ e2 ∈ (es.foldl (playerStep p) (acc, lives, go, xs)).1, EnemyBound 600 e2 := by
  intro es
  induction es with
  | nil => intro acc lives go xs hacc hes e2 he2; exact hacc e2 he2
  | cons e rest ih =>
    intro acc lives go xs hacc hes e2 he2
    rw [List.foldl_cons] at he2
    obtain ⟨e3, heq, hprop⟩ := playerStep_enemies_shape p acc lives go xs e
    have hstep : ∀ e4 ∈ (playerStep p (acc, lives, go, xs) e).1, EnemyBound 600 e4 := by
      rw [heq]
      intro e4 he4
      rcases List.mem_append.mp he4 with hmem | hmem
      · exact hacc e4 hmem
      · rw [List.mem_singleton.mp hmem]
        intro hact
        obtain ⟨he3e, _, hylow⟩ := hprop hact
        rw [he3e] at hact ⊢
        have hb := hes e (List.mem_cons_self e rest) hact
        have hy600 : e.y ≤ 600 := by
          have : ¬ (e.y > CANVAS_HEIGHT - 100) := hylow
          have hch : CANVAS_HEIGHT - 100 = (600 : ℚ) := by norm_num [CANVAS_HEIGHT]
          rw [hch] at this
          linarith [not_lt.mp this]
        exact ⟨hy600, hb.2⟩
    exact ih (playerStep p (acc, lives, go, xs) e).1 (playerStep p (acc, lives, go, xs) e).2.1
      (playerStep p (acc, lives, go, xs) e).2.2.1 (playerStep p (acc, lives, go, xs) e).2.2.2
      hstep (fun e5 he5 => hes e5 (List.mem_cons_of_mem e he5)) e2 he2

theorem playerFold_no_hit (p : Entity) :
    ∀ (es : List Enemy) (acc : List Enemy) (lives : Int) (go : Bool) (xs : List Explosion),
      (∀ e ∈ es, e.active = true → checkCollision p e.toEntity = false) →
      (es.foldl (playerStep p) (acc, lives, go, xs)).2.1 = lives ∧
      (es.foldl (playerStep p) (acc, lives, go, xs)).2.2.1 = go := by
  intro es
  induction es with
  | nil => intro acc lives go xs _; exact ⟨rfl, rfl⟩
  | cons e rest ih =>
    intro acc lives go xs h
    rw [List.foldl_cons]
    have hstep : (playerStep p (acc, lives, go, xs) e).2.1 = lives ∧
        (playerStep p (acc, lives, go, xs) e).2.2.1 = go := by
      by_cases ha : e.active = false
      · constructor <;> simp [playerStep, ha]
      · have ha2 : e.active = true := by revert ha; cases e.active <;> simp
        have hc := h e (List.mem_cons_self e rest) ha2
        by_cases hy : e.y > CANVAS_HEIGHT - 100
        · constructor <;> simp [playerStep, ha2, hc, hy]
        · constructor <;> simp [playerStep, ha2, hc, hy]
    have hrest := ih (playerStep p (acc, lives, go, xs) e).1
      (playerStep p (acc, lives, go, xs) e).2.1
      (playerStep p (acc, lives, go, xs) e).2.2.1
      (playerStep p (acc, lives, go, xs) e).2.2.2
      (fun e5 he5 => h e5 (List.mem_cons_of_mem e he5))
    exact ⟨hrest.1.trans hstep.1, hrest.2.trans hstep.2⟩

theorem playerEnemyPass_no_hit (s : GameState) (hp : s.player.y = 650)
    (h : ∀ e ∈ s.enemies, EnemyBound 620 e) :
    (playerEnemyPass s).lives = s.lives ∧ (playerEnemyPass s).gameOver = s.gameOver :=
  playerFold_no_hit s.player s.enemies [] s.lives s.gameOver s.explosions
    (fun e he hact => no_collision_of_low s.player e hp (h e he hact).1 (h e he hact).2)

theorem playerEnemyPass_bound (s : GameState) (h : ∀ e ∈ s.enemies, EnemyBound 620 e) :
    ∀ e2 ∈ (playerEnemyPass s).enemies, EnemyBound 600 e2 :=
  playerFold_bound s.player s.enemies [] s.lives s.gameOver s.explosions (by simp) h

theorem inputPass_player_y (inp : Input) (now : Int) (s : GameState) (ls : Int) :
    ((inputPass inp now s ls).1).player.y = s.player.y := by
  unfold inputPass; split <;> rfl

theorem inputPass_player_x (inp : Input) (now : Int) (s : GameState) (ls : Int) :
    ((inputPass inp now s ls).1).player.x = applyMoves inp s.player.x := by
  unfold inputPass; split <;> rfl

theorem inputPass_enemies (inp : Input) (now : Int) (s : GameState) (ls : Int) :
    ((inputPass inp now s ls).1).enemies = s.enemies := by
  unfold inputPass; split <;> rfl

theorem inputPass_score (inp : Input) (now : Int) (s : GameState) (ls : Int) :
    ((inputPass inp now s ls).1).score = s.score := by
  unfold inputPass; split <;> rfl

theorem waveClearPass_player (s : GameState) : (waveClearPass s).player = s.player := by
  unfold waveClearPass; split <;> rfl

theorem waveClearPass_enemies (s : GameState) : (waveClearPass s).enemies = s.enemies := by
  unfold waveClearPass; split <;> rfl

theorem waveClearPass_score (s : GameState) : (waveClearPass s).score = s.score := by
  unfold waveClearPass; split <;> rfl

theorem initialState_inv : GameInv initialState := by
  refine ⟨?_, ?_, ?_, ?_, ?_, ?_⟩ <;>
    norm_num [GameInv, initialState, CANVAS_HEIGHT, PLAYER_HEIGHT, CANVAS_WIDTH,
      PLAYER_WIDTH, INITIAL_LIVES]

theorem resetGame_inv (s : GameState) (h : GameInv s) : GameInv (resetGame s) := by
  refine ⟨h.1, ?_, ?_, ?_, le_refl 0, fun e he => waveEnemies_bound 1 e he⟩ <;>
    norm_num [resetGame, initWave, CANVAS_WIDTH, PLAYER_WIDTH, INITIAL_LIVES]

theorem transitionTick_inv (s : GameState) (h : GameInv s) : GameInv (transitionTick s) := by
  simp only [transitionTick, initWave]
  split
  · exact ⟨h.1, h.2.1, h.2.2.1, h.2.2.2.1, h.2.2.2.2.1, fun e he => waveEnemies_bound _ e he⟩
  · exact h

theorem bulletsMove_player (s : GameState) : (bulletsMove s).player = s.player := rfl

theorem bulletsMove_enemies (s : GameState) : (bulletsMove s).enemies = s.enemies := rfl

theorem bulletsMove_lives (s : GameState) : (bulletsMove s).lives = s.lives := rfl

theorem bulletsMove_score (s : GameState) : (bulletsMove s).score = s.score := rfl

theorem advanceEnemiesState_player (s : GameState) :
    (advanceEnemiesState s).player = s.player := rfl

theorem advanceEnemiesState_enemies (s : GameState) :
    (advanceEnemiesState s).enemies = advanceEnemies s.enemies := rfl

theorem advanceEnemiesState_lives (s : GameState) :
    (advanceEnemiesState s).lives = s.lives := rfl

theorem advanceEnemiesState_score (s : GameState) :
    (advanceEnemiesState s).score = s.score := rfl

theorem bulletEnemyPass_player (s : GameState) : (bulletEnemyPass s).player = s.player := rfl

theorem bulletEnemyPass_lives (s : GameState) : (bulletEnemyPass s).lives = s.lives := rfl

theorem playerEnemyPass_player (s : GameState) : (playerEnemyPass s).player = s.player := rfl

theorem playerEnemyPass_score (s : GameState) : (playerEnemyPass s).score = s.score := rfl

theorem explosionsPass_player (s : GameState) : (explosionsPass s).player = s.player := rfl

theorem explosionsPass_lives (s : GameState) : (explosionsPass s).lives = s.lives := rfl

theorem explosionsPass_score (s : GameState) : (explosionsPass s).score = s.score := rfl

theorem explosionsPass_enemies (s : GameState) : (explosionsPass s).enemies = s.enemies := rfl

theorem playingChain_inv (inp : Input) (now : Int) (s : GameState) (ls : Int)
    (h : GameInv s) :
    GameInv (explosionsPass (waveClearPass (playerEnemyPass (bulletEnemyPass
      (advanceEnemiesState (bulletsMove (inputPass inp now s ls).1)))))) := by
  obtain ⟨hy, hx1, hx2, hl, hsc, hen⟩ := h
  have h1y := inputPass_player_y inp now s ls
  have h1x := inputPass_player_x inp now s ls
  have h1en := inputPass_enemies inp now s ls
  have h1sc := inputPass_score inp now s ls
  have h1l := inputPass_lives inp now s ls
  have h3en : ∀ e ∈ (advanceEnemiesState (bulletsMove (inputPass inp now s ls).1)).enemies,
      EnemyBound 620 e := by
    rw [advanceEnemiesState_enemies, bulletsMove_enemies, h1en]
    exact advanceEnemies_bound s.enemies hen
  have h4en : ∀ e ∈ (bulletEnemyPass (advanceEnemiesState (bulletsMove
      (inputPass inp now s ls).1))).enemies, EnemyBound 620 e :=
    bulletEnemyPass_bound 620 _ h3en
  have h4py : (bulletEnemyPass (advanceEnemiesState (bulletsMove
      (inputPass inp now s ls).1))).player.y = 650 := by
    rw [bulletEnemyPass_player, advanceEnemiesState_player, bulletsMove_player, h1y, hy]
  have h5 := playerEnemyPass_no_hit _ h4py h4en
  have h5en := playerEnemyPass_bound _ h4en
  have h4sc := bulletEnemyPass_score_le (advanceEnemiesState (bulletsMove
    (inputPass inp now s ls).1))
  rw [advanceEnemiesState_score, bulletsMove_score, h1sc] at h4sc
  refine ⟨?_, ?_, ?_, ?_, ?_, ?_⟩
  · rw [explosionsPass_player, waveClearPass_player, playerEnemyPass_player]
    exact h4py
  · rw [explosionsPass_player, waveClearPass_player, playerEnemyPass_player,
      bulletEnemyPass_player, advanceEnemiesState_player, bulletsMove_player, h1x]
    exact (applyMoves_bounds inp s.player.x hx1 hx2).1
  · rw [explosionsPass_player, waveClearPass_player, playerEnemyPass_player,
      bulletEnemyPass_player, advanceEnemiesState_player, bulletsMove_player, h1x]
    exact (applyMoves_bounds inp s.player.x hx1 hx2).2
  · rw [explosionsPass_lives, waveClearPass_lives, h5.1, bulletEnemyPass_lives,
      advanceEnemiesState_lives, bulletsMove_lives, h1l]
    exact hl
  · rw [explosionsPass_score, waveClearPass_score, playerEnemyPass_score]
    linarith
  · rw [explosionsPass_enemies, waveClearPass_enemies]
    exact h5en

theorem gameLoopTick_inv (inp : Input) (now : Int) (s : GameState) (ls : Int)
    (h : GameInv s) : GameInv (gameLoopTick inp now s ls).1 := by
  unfold gameLoopTick
  by_cases hs : s.started = false
  · rw [if_pos hs]; exact h
  rw [if_neg hs]
  by_cases hg : s.gameOver = true
  · rw [if_pos hg]; exact h
  rw [if_neg hg]
  by_cases ht : s.levelTransition = true
  · rw [if_pos ht]; exact transitionTick_inv s h
  rw [if_neg ht]
  exact playingChain_inv inp now s ls h

theorem reachable_inv : ∀ (s : GameState) (ls : Int), Reachable s ls → GameInv s := by
  intro s ls h
  induction h with
  | init => exact initialState_inv
  | frame inp now hr ih => exact gameLoopTick_inv inp now _ _ ih
  | reset hr hguard ih => exact resetGame_inv _ ih

/-- C3: in every state reachable from the initial state by any sequence of
frames and reset events, `lives ≥ 0` and `score ≥ 0`; in particular no single
tick drives lives below 0 (in reachable states enemies are deactivated at the
breach line `y > 600` before they can ever intersect the player at `y = 650`,
so the multi-collision tick that could over-decrement lives never occurs). -/
theorem C3_lives_score_nonneg (s : GameState) (ls : Int) (h : Reachable s ls) :
    0 ≤ s.lives ∧ 0 ≤ s.score :=
  ⟨(reachable_inv s ls h).2.2.2.1, (reachable_inv s ls h).2.2.2.2.1⟩

/-- Witness for C3 at the initial state. -/
theorem C3_lives_score_nonneg_witness :
    0 ≤ initialState.lives ∧ 0 ≤ initialState.score :=
  C3_lives_score_nonneg initialState 0 Reachable.init

/-- C5: the player's `x` lies in `[10, 550]`
(`[10, CANVAS_WIDTH - PLAYER_WIDTH - 10]`) in every reachable state — hence
after the input-application step of any tick, since no later pass moves the
player — and after any sequence of move inputs applied from the initial
player position. -/
theorem C5_player_x_clamped :
    (∀ (s : GameState) (ls : Int), Reachable s ls → 10 ≤ s.player.x ∧ s.player.x ≤ 550) ∧
    ∀ (moves : List Input),
      10 ≤ moves.foldl (fun x inp => applyMoves inp x) (CANVAS_WIDTH / 2 - PLAYER_WIDTH / 2) ∧
      moves.foldl (fun x inp => applyMoves inp x) (CANVAS_WIDTH / 2 - PLAYER_WIDTH / 2) ≤ 550 := by
  constructor
  · intro s ls h
    exact ⟨(reachable_inv s ls h).2.1, (reachable_inv s ls h).2.2.1⟩
  · have key : ∀ (moves : List Input) (x : ℚ), 10 ≤ x → x ≤ 550 →
        10 ≤ moves.foldl (fun x2 inp => applyMoves inp x2) x ∧
        moves.foldl (fun x2 inp => applyMoves inp x2) x ≤ 550 := by
      intro moves
      induction moves with
      | nil => intro x h1 h2; exact ⟨h1, h2⟩
      | cons m rest ih =>
        intro x h1 h2
        rw [List.foldl_cons]
        have hb := applyMoves_bounds m x h1 h2
        exact ih _ hb.1 hb.2
    intro moves
    exact key moves _ (by norm_num [CANVAS_WIDTH, PLAYER_WIDTH])
      (by norm_num [CANVAS_WIDTH, PLAYER_WIDTH])

/-- Witness for C5 at the initial state and a one-move input sequence. -/
theorem C5_player_x_clamped_witness :
    (10 ≤ initialState.player.x ∧ initialState.player.x ≤ 550) ∧
    (10 ≤ [noInput].foldl (fun x inp => applyMoves inp x) (CANVAS_WIDTH / 2 - PLAYER_WIDTH / 2) ∧
      [noInput].foldl (fun x inp => applyMoves inp x) (CANVAS_WIDTH / 2 - PLAYER_WIDTH / 2) ≤ 550) :=
  ⟨C5_player_x_clamped.1 initialState 0 Reachable.init, C5_player_x_clamped.2 [noInput]⟩
